import Mathlib

/-!
Shallow embedding of the loomchain EVM auxiliary receipt store
(store/evm_aux/receipts.go) and of the GoLevelDB key-value wrapper
(db/goleveldb.go).

Modelling conventions:
* Byte strings ([]byte) are lists of naturals; machine integers that only
  count (uint64 size, heights) are Nat, and the int32 receipt status is Int.
* The key-value store is an association list from keys to decoded values.
  The fixed singleton keys (currentDbSizeKey, headKey, tailKey), the
  per-transaction keys and the two per-height key families are modelled as
  disjoint constructors of one key type; their byte-level spellings are
  defined outside the given sources (spec section 6, "Persisted key layout").
* Protobuf encoding is modelled at the decoded level: a stored value is the
  decoded message. The zero message marshals to the empty byte string, so
  "Get returned zero bytes" holds for an absent key, an explicitly stored
  empty byte value, and a stored zero-valued list item; proto.Unmarshal of
  the empty byte string succeeds and yields the zero message.
* proto.Marshal of an EvmTxReceiptListItem is total here, so the
  log-and-continue branches of CommitReceipts taken on marshal failure are
  unreachable in the model.
* errors are Option String (none = nil error); errors.Wrap of pkg/errors
  returns nil when the wrapped error is nil, which the model reproduces.
-/

/-- Byte strings ([]byte in Go), modelled as lists of naturals. -/
abbrev ByteStr := List Nat

/-- Event records (types.EventData) are opaque to the receipt store; they are
only accumulated into a list, so they are modelled as naturals. -/
abbrev EventData := Nat

/-- The fields of types.EvmTxReceipt that the receipt store reads:
TxHash, Status and Logs. -/
structure EvmTxReceipt where
  txHash : ByteStr
  status : Int
  logs : List EventData
deriving DecidableEq, Repr

/-- statusTxSuccess = int32(1) from receipts.go. -/
def statusTxSuccess : Int := 1

/-- types.EvmTxReceiptListItem: a chain node holding a receipt (a nilable
pointer in Go, hence Option) and the hash of the next node. -/
structure EvmTxReceiptListItem where
  receipt : Option EvmTxReceipt
  nextTxHash : ByteStr
deriving DecidableEq, Repr

/-- The zero value of EvmTxReceiptListItem, as produced by proto.Unmarshal
of an empty input. -/
def zeroItem : EvmTxReceiptListItem := { receipt := none, nextTxHash := [] }

/-- Keys of the auxiliary store. Modelled from the spec: the three singleton
keys, the per-transaction keys (the transaction hash itself) and the two
per-height key families are disjoint (spec section 6); the byte values of
the fixed keys are defined outside the given sources. -/
inductive DBKey where
  | txKey (h : ByteStr)
  | sizeKey
  | headKey
  | tailKey
  | bloomFilterKey (height : Nat)
  | txHashListKey (height : Nat)
deriving DecidableEq, Repr

/-- Decoded stored values. item is a marshalled EvmTxReceiptListItem, bytes
is a raw byte string (head/tail hashes), num is the 8-byte little-endian
uint64 size, bloom and hashlist are the per-height payloads. -/
inductive DBVal where
  | item (it : EvmTxReceiptListItem)
  | bytes (bs : ByteStr)
  | num (n : Nat)
  | bloom (evs : List EventData)
  | hashlist (hs : List ByteStr)
deriving DecidableEq, Repr

/-- The durable key-value store, as an association list. -/
abbrev DB := List (DBKey × DBVal)

/-- Point lookup (kv Get). -/
def dbGet (db : DB) (k : DBKey) : Option DBVal :=
  match db.find? (fun p => decide (p.1 = k)) with
  | some p => some p.2
  | none => none

/-- Existence check (kv Has). -/
def dbHas (db : DB) (k : DBKey) : Bool := (dbGet db k).isSome

/-- Point write (kv Set): overwrite an existing binding or append a new one. -/
def dbSet (db : DB) (k : DBKey) (v : DBVal) : DB :=
  if db.any (fun p => decide (p.1 = k)) then
    db.map (fun p => if p.1 = k then (k, v) else p)
  else db ++ [(k, v)]

/-- Point delete (kv Delete). -/
def dbDel (db : DB) (k : DBKey) : DB :=
  db.filter (fun p => !decide (p.1 = k))

/-- A staged batch operation (spec section 4.1). -/
inductive BatchOp where
  | set (k : DBKey) (v : DBVal)
  | del (k : DBKey)
deriving DecidableEq, Repr

/-- Application of one batch operation to the durable store. -/
def applyOp (db : DB) (op : BatchOp) : DB :=
  match op with
  | .set k v => dbSet db k v
  | .del k => dbDel db k

/-- Modelled from the spec (section 4.1): commit applies the staged
operations in order as a single atomic unit. -/
def applyBatch (db : DB) (b : List BatchOp) : DB := b.foldl applyOp db

/-- The EvmAuxStore: the durable store, the scoped write batch, and the
configured maximum number of receipts. -/
structure EvmAuxStore where
  db : DB
  batch : List BatchOp
  maxReceipts : Nat
deriving DecidableEq, Repr

/-- Go-level emptiness of a fetched value: Get returned zero bytes. This
holds for an absent key, a stored empty byte string, and a stored
zero-valued list item (the zero message marshals to the empty string). -/
def valIsEmpty : Option DBVal → Bool
  | none => true
  | some (.bytes bs) => bs.isEmpty
  | some (.item it) => decide (it = zeroItem)
  | some _ => false

/-- proto.Unmarshal of a fetched value into an EvmTxReceiptListItem.
Unmarshal of an empty input (absent key) succeeds with the zero item;
payloads of the other families fail to decode. -/
def unmarshalItem : Option DBVal → Except String EvmTxReceiptListItem
  | none => .ok zeroItem
  | some (.item it) => .ok it
  | some (.bytes bs) => if bs.isEmpty then .ok zeroItem else .error "unmarshal"
  | some _ => .error "unmarshal"

/-- errors.Wrap from pkg/errors: returns nil when the wrapped error is nil,
otherwise annotates the message. -/
def wrap (err : Option String) (msg : String) : Option String :=
  match err with
  | none => none
  | some e => some (msg ++ ": " ++ e)

/-- Result of a Go function that may return a value, return an error, or
panic (abort the process). -/
inductive GoResult (α : Type) where
  | ok (a : α)
  | err (e : String)
  | panics (msg : String)
deriving DecidableEq, Repr

/-- GetReceipt (receipts.go lines 23-34): point lookup of the chain node
under txHash; NotFound if Get returned zero bytes; otherwise unmarshal and
dereference the Receipt pointer (a nil pointer panics). -/
def GetReceipt (s : EvmAuxStore) (txHash : ByteStr) : GoResult EvmTxReceipt :=
  let v := dbGet s.db (DBKey.txKey txHash)
  if valIsEmpty v then .err "Tx receipt not found"
  else
    match unmarshalItem v with
    | .error e => .err e
    | .ok it =>
      match it.receipt with
      | none => .panics "nil pointer dereference"
      | some r => .ok r

/-- binary.LittleEndian.Uint64 of the stored size value. -/
def decodeSize : Option DBVal → Nat
  | some (.num n) => n
  | _ => 0

/-- Raw bytes of a fetched value (head/tail keys hold raw hash bytes). -/
def getBytes : Option DBVal → ByteStr
  | some (.bytes bs) => bs
  | _ => []

/-- getDBParams (receipts.go lines 130-153). -/
def getDBParams (s : EvmAuxStore) : Except String (Nat × ByteStr × ByteStr) :=
  if dbHas s.db DBKey.sizeKey = false then .ok (0, [], [])
  else
    let size := decodeSize (dbGet s.db DBKey.sizeKey)
    if size = 0 then .ok (0, [], [])
    else
      let head := getBytes (dbGet s.db DBKey.headKey)
      if head.isEmpty then .error "no head for non zero size receipt db"
      else
        let tail := getBytes (dbGet s.db DBKey.tailKey)
        if tail.isEmpty then .error "no tail for non zero size receipt db"
        else .ok (size, head, tail)

/-- setDBParams (receipts.go lines 155-161): the staged writes of the three
singleton keys, in source order. -/
def setDBParams (size : Nat) (head tail : ByteStr) : List BatchOp :=
  [BatchOp.set DBKey.headKey (DBVal.bytes head),
   BatchOp.set DBKey.tailKey (DBVal.bytes tail),
   BatchOp.set DBKey.sizeKey (DBVal.num size)]

/-- In-loop state of CommitReceipts (receipts.go lines 58-92): the running
chain parameters, the pending tail item, the staged batch, and the two
per-height accumulators. -/
structure LoopSt where
  headHash : ByteStr
  tailHash : ByteStr
  tailItem : EvmTxReceiptListItem
  size : Nat
  batch : List BatchOp
  txHashArray : List ByteStr
  events : List EventData
deriving DecidableEq, Repr

/-- The loop's keep condition: a receipt pointer is processed only when it
is non-nil and its TxHash is non-empty (receipts.go lines 60-63). -/
def keptB : Option EvmTxReceipt → Bool
  | none => false
  | some r => !r.txHash.isEmpty

/-- The receipts of the input that the loop actually processes, in order. -/
def keptList (rs : List (Option EvmTxReceipt)) : List EvmTxReceipt :=
  rs.filterMap (fun o =>
    match o with
    | none => none
    | some r => if r.txHash.isEmpty then none else some r)

/-- The success-hash accumulation: hashes of success-status receipts in
input order (receipts.go lines 87-89). -/
def successHashes (rs : List EvmTxReceipt) : List ByteStr :=
  rs.foldr (fun r acc => (if r.status = statusTxSuccess then [r.txHash] else []) ++ acc) []

/-- The event accumulation: concatenation of the receipts' logs in input
order (receipts.go line 91). -/
def flatLogs (rs : List EvmTxReceipt) : List EventData :=
  rs.foldr (fun r acc => r.logs ++ acc) []

/-- One iteration of the CommitReceipts loop (receipts.go lines 60-92).
Nil and empty-hash receipts are skipped. Otherwise: if the head is still
empty this receipt becomes the head; else the previous tail gets its next
pointer set and is staged, and size is incremented exactly when the previous
tail's key is not already in the durable store. The receipt then becomes
the pending tail, success hashes and logs are accumulated. proto.Marshal is
total in the model, so the continue-on-marshal-failure branch is
unreachable. -/
def commitStep (db : DB) (st : LoopSt) (o : Option EvmTxReceipt) : LoopSt :=
  match o with
  | none => st
  | some r =>
    if r.txHash.isEmpty then st
    else
      let st1 :=
        if st.headHash.isEmpty then { st with headHash := r.txHash }
        else
          { st with
            batch := st.batch ++ [BatchOp.set (DBKey.txKey st.tailHash)
                       (DBVal.item { st.tailItem with nextTxHash := r.txHash })],
            size := if dbHas db (DBKey.txKey st.tailHash) then st.size else st.size + 1 }
      { st1 with
        tailHash := r.txHash,
        tailItem := { receipt := some r, nextTxHash := [] },
        txHashArray := st1.txHashArray ++ (if r.status = statusTxSuccess then [r.txHash] else []),
        events := st1.events ++ r.logs }

/-- The whole CommitReceipts loop over the input receipts. -/
def commitLoop (db : DB) (st : LoopSt) (rs : List (Option EvmTxReceipt)) : LoopSt :=
  rs.foldl (commitStep db) st

/-- Staging of the final tail node after the loop (receipts.go lines
94-104): size is incremented under the same not-already-present rule. -/
def commitFinalStage (db : DB) (st : LoopSt) : LoopSt :=
  if st.tailHash.isEmpty then st
  else
    { st with
      batch := st.batch ++ [BatchOp.set (DBKey.txKey st.tailHash) (DBVal.item st.tailItem)],
      size := if dbHas db (DBKey.txKey st.tailHash) then st.size else st.size + 1 }

/-- Return value of removeOldEntries: the new head, the number of nodes
actually deleted, the batch extended with the staged deletes, and the
error, if any. -/
structure RemoveResult where
  head : ByteStr
  numDeleted : Nat
  batch : List BatchOp
  err : Option String
deriving DecidableEq, Repr

/-- The walk of removeOldEntries (receipts.go lines 165-174): for at most
the requested number of iterations and while the head is non-empty, fetch
the head from the durable store, unmarshal it (an absent key unmarshals to
the zero item and so still counts as deleted), stage its delete and advance
to its next pointer. -/
def removeLoop (db : DB) (head : ByteStr) (fuel : Nat) (batch : List BatchOp) (deleted : Nat) : RemoveResult :=
  match fuel with
  | 0 => { head := head, numDeleted := deleted, batch := batch, err := none }
  | n + 1 =>
    if head.isEmpty then { head := head, numDeleted := deleted, batch := batch, err := none }
    else
      match unmarshalItem (dbGet db (DBKey.txKey head)) with
      | .error e =>
        { head := head, numDeleted := deleted, batch := batch,
          err := some ("unmarshal head: " ++ e) }
      | .ok it =>
        removeLoop db it.nextTxHash n (batch ++ [BatchOp.del (DBKey.txKey head)]) (deleted + 1)

/-- removeOldEntries (receipts.go lines 163-180): run the walk, then report
an error when fewer nodes were deleted than requested. -/
def removeOldEntries (db : DB) (batch : List BatchOp) (head : ByteStr) (number : Nat) : RemoveResult :=
  let r := removeLoop db head number batch 0
  match r.err with
  | some _ => r
  | none =>
    if r.numDeleted < number then
      { r with err := some ("Unable to delete " ++ toString number ++ " receipts, only "
                              ++ toString r.numDeleted ++ " deleted") }
    else r

/-- Modelled from the spec: the Bloom Index Builder is an external pure
function over the ordered event sequence (spec section 6); its construction
is out of scope, so the filter is represented by the event sequence it is
built from. -/
def GenBloomFilter (events : List EventData) : List EventData := events

/-- Modelled from the spec: setTxHashList stages the per-height
success-hash list under the height key (spec section 4.2 step 8); staging
cannot fail. The function lives outside the given sources. -/
def setTxHashList (hs : List ByteStr) (height : Nat) : List BatchOp :=
  [BatchOp.set (DBKey.txHashListKey height) (DBVal.hashlist hs)]

/-- Modelled from the spec: setBloomFilter stages the per-height bloom
filter under the height key (spec section 4.2 step 8). The function lives
outside the given sources. -/
def setBloomFilter (f : List EventData) (height : Nat) : List BatchOp :=
  [BatchOp.set (DBKey.bloomFilterKey height) (DBVal.bloom f)]

/-- Modelled from the spec (section 4.1): Commit applies the staged batch
atomically and the scoped batch is discarded. -/
def commitBatch (s : EvmAuxStore) : EvmAuxStore :=
  { s with db := applyBatch s.db s.batch, batch := [] }

/-- The tail end of CommitReceipts after eviction (receipts.go lines
118-127): stage the updated parameters, the per-height success-hash list
and the per-height bloom filter, then commit the batch atomically. -/
def finishCommit (db : DB) (maxReceipts height : Nat) (st : LoopSt) : EvmAuxStore × Option String :=
  let b1 := st.batch ++ setDBParams st.size st.headHash st.tailHash
  let b2 := b1 ++ setTxHashList st.txHashArray height
  let b3 := b2 ++ setBloomFilter (GenBloomFilter st.events) height
  (commitBatch { db := db, batch := b3, maxReceipts := maxReceipts }, none)

/-- The eviction step of CommitReceipts (receipts.go lines 106-117)
followed by the final writes: when size exceeds the bound, evict from the
head; a removeOldEntries error aborts the commit with the wrapped error and
no change to the durable store. The size-less-than-numDeleted guard wraps a
nil error (a pkg/errors slip), hence returns success without committing. -/
def commitEvictAndWrite (db : DB) (maxReceipts height : Nat) (st : LoopSt) : EvmAuxStore × Option String :=
  if maxReceipts < st.size then
    let r := removeOldEntries db st.batch st.headHash (st.size - maxReceipts)
    match r.err with
    | some e =>
      ({ db := db, batch := r.batch, maxReceipts := maxReceipts },
       some ("removing old receipts: " ++ e))
    | none =>
      if st.size < r.numDeleted then
        ({ db := db, batch := r.batch, maxReceipts := maxReceipts },
         wrap none "invalid count of deleted receipts")
      else
        finishCommit db maxReceipts height
          { st with headHash := r.head, size := st.size - r.numDeleted, batch := r.batch }
  else finishCommit db maxReceipts height st

/-- Everything CommitReceipts does after the loop (receipts.go lines
94-127): stage the final tail, evict if over the bound, write parameters
and per-height indexes, commit. -/
def commitFinish (db : DB) (maxReceipts height : Nat) (st : LoopSt) : EvmAuxStore × Option String :=
  commitEvictAndWrite db maxReceipts height (commitFinalStage db st)

/-- CommitReceipts (receipts.go lines 36-128). The input is a list of
nilable receipt pointers. Early success when the input is empty or the
bound is zero; then Rollback (discard the stale batch), read the chain
parameters, fetch the current tail when the head is non-empty (the
zero-byte-tail branch wraps a nil error, a pkg/errors slip, and so returns
success without committing), run the loop, and finish. -/
def CommitReceipts (s : EvmAuxStore) (receipts : List (Option EvmTxReceipt)) (height : Nat) : EvmAuxStore × Option String :=
  if receipts.isEmpty || s.maxReceipts == 0 then (s, none)
  else
    let s1 : EvmAuxStore := { s with batch := [] }
    match getDBParams s1 with
    | .error e => (s1, wrap (some e) "getting db params.")
    | .ok (size, headHash, tailHash) =>
      let tailRes : Except (Option String) EvmTxReceiptListItem :=
        if headHash.isEmpty then .ok zeroItem
        else
          let v := dbGet s1.db (DBKey.txKey tailHash)
          if valIsEmpty v then .error (wrap none "cannot find tail")
          else
            match unmarshalItem v with
            | .error e => .error (wrap (some e) "unmarshalling tail")
            | .ok it => .ok it
      match tailRes with
      | .error e => (s1, e)
      | .ok tailItem0 =>
        let st0 : LoopSt :=
          { headHash := headHash, tailHash := tailHash, tailItem := tailItem0,
            size := size, batch := [], txHashArray := [], events := [] }
        commitFinish s1.db s1.maxReceipts height (commitLoop s1.db st0 receipts)

/-- A GoLevelDB snapshot handle (db/goleveldb.go lines 24-26). -/
structure GoLevelDBSnapshot where
  handle : Nat
deriving DecidableEq, Repr

/-- The GoLevelDB wrapper; the outcome of the underlying engine's snapshot
acquisition is modelled as a field: either a handle or an engine error. -/
structure GoLevelDB where
  snapshotResult : Except String Nat
deriving Repr

/-- GetSnapshot (db/goleveldb.go lines 19-27): panic on an engine error,
otherwise wrap the snapshot handle. The return type has no error
constructor reachable here: failure is a process abort. -/
def GetSnapshot (g : GoLevelDB) : GoResult GoLevelDBSnapshot :=
  match g.snapshotResult with
  | .error e => .panics e
  | .ok h => .ok { handle := h }

/-! Helper lemmas shared by the claim theorems. -/

theorem keptList_cons (o : Option EvmTxReceipt) (rs : List (Option EvmTxReceipt)) :
    keptList (o :: rs) = keptList [o] ++ keptList rs := by
  cases o with
  | none => simp [keptList]
  | some r =>
    by_cases he : r.txHash = [] <;> simp [keptList, List.isEmpty_iff, he]

theorem successHashes_cons (r : EvmTxReceipt) (l : List EvmTxReceipt) :
    successHashes (r :: l) =
      (if r.status = statusTxSuccess then [r.txHash] else []) ++ successHashes l := rfl

theorem flatLogs_cons (r : EvmTxReceipt) (l : List EvmTxReceipt) :
    flatLogs (r :: l) = r.logs ++ flatLogs l := rfl

theorem successHashes_append (l1 l2 : List EvmTxReceipt) :
    successHashes (l1 ++ l2) = successHashes l1 ++ successHashes l2 := by
  induction l1 with
  | nil => simp [successHashes]
  | cons r l ih =>
    rw [List.cons_append, successHashes_cons, successHashes_cons, ih, List.append_assoc]

theorem flatLogs_append (l1 l2 : List EvmTxReceipt) :
    flatLogs (l1 ++ l2) = flatLogs l1 ++ flatLogs l2 := by
  induction l1 with
  | nil => simp [flatLogs]
  | cons r l ih =>
    rw [List.cons_append, flatLogs_cons, flatLogs_cons, ih, List.append_assoc]

theorem commitStep_accs (db : DB) (st : LoopSt) (o : Option EvmTxReceipt) :
    (commitStep db st o).txHashArray = st.txHashArray ++ successHashes (keptList [o]) ∧
    (commitStep db st o).events = st.events ++ flatLogs (keptList [o]) := by
  cases o with
  | none => simp [commitStep, keptList, successHashes, flatLogs]
  | some r =>
    by_cases he : r.txHash = []
    · simp [commitStep, List.isEmpty_iff, he, keptList, successHashes, flatLogs]
    · by_cases hh : st.headHash.isEmpty <;>
        by_cases hs : r.status = statusTxSuccess <;>
          simp [commitStep, List.isEmpty_iff, he, hh, hs, keptList,
            successHashes_cons, flatLogs_cons, successHashes, flatLogs]

theorem commitLoop_accs (db : DB) (rs : List (Option EvmTxReceipt)) :
    ∀ st : LoopSt,
      (commitLoop db st rs).txHashArray = st.txHashArray ++ successHashes (keptList rs) ∧
      (commitLoop db st rs).events = st.events ++ flatLogs (keptList rs) := by
  induction rs with
  | nil => intro st; simp [commitLoop, keptList, successHashes, flatLogs]
  | cons o rs ih =>
    intro st
    have hstep := commitStep_accs db st o
    have hrec := ih (commitStep db st o)
    have hl : commitLoop db st (o :: rs) = commitLoop db (commitStep db st o) rs := rfl
    rw [hl, keptList_cons, successHashes_append, flatLogs_append]
    exact ⟨by rw [hrec.1, hstep.1, List.append_assoc],
           by rw [hrec.2, hstep.2, List.append_assoc]⟩

theorem mem_successHashes (a : ByteStr) (l : List EvmTxReceipt) :
    a ∈ successHashes l ↔ ∃ r, r ∈ l ∧ r.status = statusTxSuccess ∧ r.txHash = a := by
  induction l with
  | nil => simp [successHashes]
  | cons r l ih =>
    rw [successHashes_cons]
    by_cases hs : r.status = statusTxSuccess
    · simp only [hs, if_true, List.singleton_append, ih, List.mem_cons]
      constructor
      · rintro (rfl | ⟨r2, h2, hs2, rfl⟩)
        · exact ⟨r, Or.inl rfl, hs, rfl⟩
        · exact ⟨r2, Or.inr h2, hs2, rfl⟩
      · rintro ⟨r2, (rfl | h2), hs2, rfl⟩
        · exact Or.inl rfl
        · exact Or.inr ⟨r2, h2, hs2, rfl⟩
    · simp only [hs, if_false, List.nil_append, ih, List.mem_cons]
      constructor
      · rintro ⟨r2, h2, hs2, rfl⟩
        exact ⟨r2, Or.inr h2, hs2, rfl⟩
      · rintro ⟨r2, (rfl | h2), hs2, rfl⟩
        · exact absurd hs2 hs
        · exact ⟨r2, h2, hs2, rfl⟩

theorem logs_infixOf_flatLogs (r : EvmTxReceipt) (l : List EvmTxReceipt) (h : r ∈ l) :
    List.IsInfix r.logs (flatLogs l) := by
  induction l with
  | nil => simp at h
  | cons a l ih =>
    rcases List.mem_cons.1 h with h | h
    · subst h
      exact ⟨[], flatLogs l, by rw [flatLogs_cons]; simp⟩
    · rcases ih h with ⟨s, t, he⟩
      refine ⟨a.logs ++ s, t, ?_⟩
      rw [flatLogs_cons, ← he]
      simp [List.append_assoc]

/-! Claim theorems. -/

/-- C3: for every store state and height, CommitReceipts with an empty
receipts list or with maxReceipts = 0 returns success and changes nothing:
the result is the input store itself (so size, head, tail, every node, and
the per-height indexes are untouched, and no entry is created for the
height). -/
theorem commitReceipts_noop_on_empty (s : EvmAuxStore)
    (receipts : List (Option EvmTxReceipt)) (height : Nat)
    (h : receipts = [] ∨ s.maxReceipts = 0) :
    CommitReceipts s receipts height = (s, none) := by
  rcases h with h | h <;> simp [CommitReceipts, h]

theorem commitReceipts_noop_on_empty_witness :
    CommitReceipts { db := [], batch := [], maxReceipts := 0 }
      [some { txHash := [4], status := 1, logs := [3] }] 7 =
    ({ db := [], batch := [], maxReceipts := 0 }, none) :=
  commitReceipts_noop_on_empty _ _ _ (Or.inr rfl)

/-- C9: GetSnapshot on the GoLevelDB wrapper panics whenever the underlying
engine's snapshot acquisition returns an error; no error value is ever
returned to the caller from that branch. -/
theorem getSnapshot_panics_on_engine_error (g : GoLevelDB) (e : String)
    (h : g.snapshotResult = Except.error e) :
    GetSnapshot g = GoResult.panics e := by
  simp [GetSnapshot, h]

theorem getSnapshot_panics_on_engine_error_witness :
    GetSnapshot { snapshotResult := Except.error "leveldb: closed" } =
      GoResult.panics "leveldb: closed" :=
  getSnapshot_panics_on_engine_error _ "leveldb: closed" rfl

/-- C10: GetReceipt dereferences the Receipt field of the decoded list item
unconditionally; a stored non-empty value that decodes to an item with an
absent receipt (possible exactly when its next pointer is non-empty, since
the zero item encodes to the empty string) makes GetReceipt panic with a
nil-pointer dereference instead of returning an error. -/
theorem getReceipt_panics_on_nil_receipt_field (s : EvmAuxStore) (h : ByteStr)
    (it : EvmTxReceiptListItem)
    (hv : dbGet s.db (DBKey.txKey h) = some (DBVal.item it))
    (hr : it.receipt = none) (hne : it.nextTxHash ≠ []) :
    GetReceipt s h = GoResult.panics "nil pointer dereference" := by
  have hz : it ≠ zeroItem := by
    intro hzz
    rw [hzz] at hne
    exact hne rfl
  simp [GetReceipt, hv, valIsEmpty, unmarshalItem, hz, hr]

theorem getReceipt_panics_on_nil_receipt_field_witness :
    GetReceipt
      { db := [(DBKey.txKey [1], DBVal.item { receipt := none, nextTxHash := [2] })],
        batch := [], maxReceipts := 5 } [1] =
      GoResult.panics "nil pointer dereference" :=
  getReceipt_panics_on_nil_receipt_field _ [1]
    { receipt := none, nextTxHash := [2] } rfl rfl (by decide)

/-- C1 (code bug): on a store whose parameters claim size 1 with head and
tail pointing at hash 9, but with no node stored under that hash,
CommitReceipts with a non-empty receipts list and a non-zero bound returns
success (nil error) and commits nothing, because receipts.go line 51 wraps
a nil error (pkg/errors returns nil in that case) instead of producing the
intended "cannot find tail" corruption error. -/
theorem commitReceipts_missing_tail_returns_success :
    CommitReceipts
      { db := [(DBKey.sizeKey, DBVal.num 1), (DBKey.headKey, DBVal.bytes [9]),
               (DBKey.tailKey, DBVal.bytes [9])],
        batch := [], maxReceipts := 10 }
      [some { txHash := [5], status := 1, logs := [] }] 3 =
    ({ db := [(DBKey.sizeKey, DBVal.num 1), (DBKey.headKey, DBVal.bytes [9]),
              (DBKey.tailKey, DBVal.bytes [9])],
       batch := [], maxReceipts := 10 }, none) := by
  decide

/-- C2 (code bug): committing two receipts into a fresh store with a bound
of 1 succeeds, yet the committed parameters say size 1 with an empty head:
removeOldEntries reads the durable store while this call's nodes are only
staged in the batch, so the eviction walk follows stale next pointers and
the committed state violates the chain invariant (size = 0 iff head and
tail empty, head of a non-empty chain resolves to a node); a further
getDBParams on the committed store fails outright. -/
theorem commitReceipts_eviction_breaks_chain_invariant :
    (CommitReceipts { db := [], batch := [], maxReceipts := 1 }
      [some { txHash := [1], status := 1, logs := [] },
       some { txHash := [2], status := 1, logs := [] }] 1).2 = none ∧
    dbGet (CommitReceipts { db := [], batch := [], maxReceipts := 1 }
      [some { txHash := [1], status := 1, logs := [] },
       some { txHash := [2], status := 1, logs := [] }] 1).1.db DBKey.sizeKey =
      some (DBVal.num 1) ∧
    dbGet (CommitReceipts { db := [], batch := [], maxReceipts := 1 }
      [some { txHash := [1], status := 1, logs := [] },
       some { txHash := [2], status := 1, logs := [] }] 1).1.db DBKey.headKey =
      some (DBVal.bytes []) ∧
    getDBParams (CommitReceipts { db := [], batch := [], maxReceipts := 1 }
      [some { txHash := [1], status := 1, logs := [] },
       some { txHash := [2], status := 1, logs := [] }] 1).1 =
      Except.error "no head for non zero size receipt db" :=
  ⟨rfl, rfl, rfl, rfl⟩

/-- C4: within a CommitReceipts call (whose loop starts with empty
accumulators), the per-height success-hash accumulation staged by
setTxHashList is exactly the input-order hashes of the processed
success-status receipts, the event sequence fed to the bloom builder is the
input-order concatenation of all processed receipts' logs, every processed
receipt's logs appear contiguously in that event sequence, and a
non-success receipt's hash is absent from the success-hash list whenever no
success receipt shares its hash. -/
theorem commitLoop_success_hashes_and_events (db : DB) (st : LoopSt)
    (rs : List (Option EvmTxReceipt)) (hA : st.txHashArray = []) (hE : st.events = []) :
    (commitLoop db st rs).txHashArray = successHashes (keptList rs) ∧
    (commitLoop db st rs).events = flatLogs (keptList rs) ∧
    (∀ r, r ∈ keptList rs → List.IsInfix r.logs (commitLoop db st rs).events) ∧
    (∀ r, r ∈ keptList rs → r.status ≠ statusTxSuccess →
      (∀ r2, r2 ∈ keptList rs → r2.status = statusTxSuccess → r2.txHash ≠ r.txHash) →
      ¬ r.txHash ∈ (commitLoop db st rs).txHashArray) := by
  have h := commitLoop_accs db rs st
  have h1 : (commitLoop db st rs).txHashArray = successHashes (keptList rs) := by
    rw [h.1, hA, List.nil_append]
  have h2 : (commitLoop db st rs).events = flatLogs (keptList rs) := by
    rw [h.2, hE, List.nil_append]
  refine ⟨h1, h2, ?_, ?_⟩
  · intro r hr
    rw [h2]
    exact logs_infixOf_flatLogs r _ hr
  · intro r hr hns hdist hmem
    rw [h1] at hmem
    rcases (mem_successHashes _ _).1 hmem with ⟨r2, hr2, hs2, hh2⟩
    exact hdist r2 hr2 hs2 hh2

theorem commitLoop_success_hashes_and_events_witness :
    ¬ ([2] : ByteStr) ∈ (commitLoop []
      { headHash := [], tailHash := [], tailItem := zeroItem, size := 0,
        batch := [], txHashArray := [], events := [] }
      [some { txHash := [1], status := 1, logs := [10] },
       some { txHash := [2], status := 0, logs := [20] }]).txHashArray :=
  (commitLoop_success_hashes_and_events []
      { headHash := [], tailHash := [], tailItem := zeroItem, size := 0,
        batch := [], txHashArray := [], events := [] }
      [some { txHash := [1], status := 1, logs := [10] },
       some { txHash := [2], status := 0, logs := [20] }] rfl rfl).2.2.2
    { txHash := [2], status := 0, logs := [20] } (by decide) (by decide) (by decide)

/-- C6: GetReceipt fails with the Tx-receipt-not-found error exactly when
the Get of the transaction hash returns zero bytes (no value stored under
the key); when the stored value decodes to a chain node carrying a receipt,
it returns that receipt; and the outcome depends only on the value stored
under the hash, not on head, tail, size or chain reachability. -/
theorem getReceipt_notfound_iff_point_lookup (s : EvmAuxStore) (h : ByteStr) :
    (GetReceipt s h = GoResult.err "Tx receipt not found" ↔
      valIsEmpty (dbGet s.db (DBKey.txKey h)) = true) ∧
    (∀ it r, dbGet s.db (DBKey.txKey h) = some (DBVal.item it) → it.receipt = some r →
      GetReceipt s h = GoResult.ok r) ∧
    (∀ s2 : EvmAuxStore, dbGet s2.db (DBKey.txKey h) = dbGet s.db (DBKey.txKey h) →
      GetReceipt s2 h = GetReceipt s h) := by
  refine ⟨?_, ?_, ?_⟩
  · cases hv : dbGet s.db (DBKey.txKey h) with
    | none => simp [GetReceipt, hv, valIsEmpty]
    | some v =>
      cases v with
      | item it =>
        by_cases hz : it = zeroItem
        · simp [GetReceipt, hv, valIsEmpty, hz]
        · cases hr : it.receipt with
          | none => simp [GetReceipt, hv, valIsEmpty, unmarshalItem, hz, hr]
          | some r => simp [GetReceipt, hv, valIsEmpty, unmarshalItem, hz, hr]
      | bytes bs =>
        cases bs with
        | nil => simp [GetReceipt, hv, valIsEmpty]
        | cons a as => simp [GetReceipt, hv, valIsEmpty, unmarshalItem]
      | num n => simp [GetReceipt, hv, valIsEmpty, unmarshalItem]
      | bloom evs => simp [GetReceipt, hv, valIsEmpty, unmarshalItem]
      | hashlist hs => simp [GetReceipt, hv, valIsEmpty, unmarshalItem]
  · intro it r hv hr
    have hz : it ≠ zeroItem := by
      intro hzz
      rw [hzz] at hr
      simp [zeroItem] at hr
    simp [GetReceipt, hv, valIsEmpty, unmarshalItem, hz, hr]
  · intro s2 he
    unfold GetReceipt
    rw [he]

theorem getReceipt_notfound_iff_point_lookup_witness :
    GetReceipt
      { db := [(DBKey.txKey [1],
                DBVal.item { receipt := some { txHash := [1], status := 1, logs := [] },
                             nextTxHash := [] })],
        batch := [], maxReceipts := 5 } [1] =
      GoResult.ok { txHash := [1], status := 1, logs := [] } :=
  (getReceipt_notfound_iff_point_lookup
      { db := [(DBKey.txKey [1],
                DBVal.item { receipt := some { txHash := [1], status := 1, logs := [] },
                             nextTxHash := [] })],
        batch := [], maxReceipts := 5 } [1]).2.1
    { receipt := some { txHash := [1], status := 1, logs := [] }, nextTxHash := [] }
    { txHash := [1], status := 1, logs := [] } rfl rfl

/-- C7: nil receipt pointers and receipts with an empty transaction hash
are silently skipped by the CommitReceipts loop: running the loop on the
input is the same as running it on the input with those entries removed, so
they are not linked into the chain, change neither size nor head nor tail
beyond what the remaining receipts cause, and contribute nothing to the
success-hash list or the event accumulation; the loop has no error outcome. -/
theorem commitLoop_skips_nil_and_empty_hash (db : DB) (rs : List (Option EvmTxReceipt)) :
    ∀ st : LoopSt, commitLoop db st rs = commitLoop db st (rs.filter keptB) := by
  induction rs with
  | nil => intro st; rfl
  | cons o rs ih =>
    intro st
    cases o with
    | none =>
      have h2 : (none :: rs).filter keptB = rs.filter keptB := by simp [keptB]
      have h1 : commitLoop db st (none :: rs) = commitLoop db st rs := rfl
      rw [h1, h2]
      exact ih st
    | some r =>
      by_cases he : r.txHash = []
      · have hst : commitStep db st (some r) = st := by
          simp [commitStep, he]
        have h1 : commitLoop db st (some r :: rs) =
            commitLoop db (commitStep db st (some r)) rs := rfl
        have h2 : (some r :: rs).filter keptB = rs.filter keptB := by
          simp [keptB, he]
        rw [h1, hst, h2]
        exact ih st
      · have h2 : (some r :: rs).filter keptB = some r :: rs.filter keptB := by
          simp [keptB, List.isEmpty_iff, he]
        have h1 : commitLoop db st (some r :: rs) =
            commitLoop db (commitStep db st (some r)) rs := rfl
        have h3 : commitLoop db st (some r :: rs.filter keptB) =
            commitLoop db (commitStep db st (some r)) (rs.filter keptB) := rfl
        rw [h2, h1, h3]
        exact ih (commitStep db st (some r))

/-- C8: each time a tail node's write is staged, the running size is
incremented exactly when that node's key is not already present in the
durable store: for the previous tail when a later receipt is linked onto
it in the loop, and for the final tail after the loop. -/
theorem commitStep_size_increment_guard (db : DB) (st : LoopSt) (r : EvmTxReceipt)
    (hkept : r.txHash.isEmpty = false) :
    (st.headHash.isEmpty = false →
      (commitStep db st (some r)).batch =
        st.batch ++ [BatchOp.set (DBKey.txKey st.tailHash)
          (DBVal.item { st.tailItem with nextTxHash := r.txHash })] ∧
      (commitStep db st (some r)).size =
        (if dbHas db (DBKey.txKey st.tailHash) then st.size else st.size + 1)) ∧
    (st.tailHash.isEmpty = false →
      (commitFinalStage db st).batch =
        st.batch ++ [BatchOp.set (DBKey.txKey st.tailHash) (DBVal.item st.tailItem)] ∧
      (commitFinalStage db st).size =
        (if dbHas db (DBKey.txKey st.tailHash) then st.size else st.size + 1)) := by
  constructor
  · intro hh
    constructor <;> simp [commitStep, hkept, hh]
  · intro ht
    constructor <;> simp [commitFinalStage, ht]

theorem commitStep_size_increment_guard_witness :
    (commitStep
        [(DBKey.txKey [7],
          DBVal.item { receipt := some { txHash := [7], status := 1, logs := [] },
                       nextTxHash := [] })]
        { headHash := [7], tailHash := [7],
          tailItem := { receipt := some { txHash := [7], status := 1, logs := [] },
                        nextTxHash := [] },
          size := 1, batch := [], txHashArray := [], events := [] }
        (some { txHash := [8], status := 1, logs := [] })).size = 1 ∧
    (commitFinalStage []
        { headHash := [8], tailHash := [8],
          tailItem := { receipt := some { txHash := [8], status := 1, logs := [] },
                        nextTxHash := [] },
          size := 0, batch := [], txHashArray := [], events := [] }).size = 1 := by
  constructor
  · rw [((commitStep_size_increment_guard
        [(DBKey.txKey [7],
          DBVal.item { receipt := some { txHash := [7], status := 1, logs := [] },
                       nextTxHash := [] })]
        { headHash := [7], tailHash := [7],
          tailItem := { receipt := some { txHash := [7], status := 1, logs := [] },
                        nextTxHash := [] },
          size := 1, batch := [], txHashArray := [], events := [] }
        { txHash := [8], status := 1, logs := [] } rfl).1 rfl).2]
    decide
  · rw [((commitStep_size_increment_guard []
        { headHash := [8], tailHash := [8],
          tailItem := { receipt := some { txHash := [8], status := 1, logs := [] },
                        nextTxHash := [] },
          size := 0, batch := [], txHashArray := [], events := [] }
        { txHash := [8], status := 1, logs := [] } rfl).2 rfl).2]
    decide

/-- C5: when the eviction walk runs out of chain before deleting the
requested number of nodes, removeOldEntries reports the actual number
deleted together with an error; and whenever CommitReceipts takes the
eviction branch, the error it returns is exactly the removeOldEntries
error wrapped as "removing old receipts", with the durable store left
unchanged when that error fires. -/
theorem removeOldEntries_shortfall_fails (db : DB) (batch : List BatchOp) (head : ByteStr)
    (number maxR height : Nat) (st : LoopSt) :
    ((removeOldEntries db batch head number).numDeleted < number →
      (removeOldEntries db batch head number).err.isSome = true) ∧
    (maxR < st.size →
      (commitEvictAndWrite db maxR height st).2 =
        wrap (removeOldEntries db st.batch st.headHash (st.size - maxR)).err
          "removing old receipts" ∧
      ((removeOldEntries db st.batch st.headHash (st.size - maxR)).err.isSome = true →
        (commitEvictAndWrite db maxR height st).1.db = db)) := by
  constructor
  · intro hlt
    simp only [removeOldEntries] at hlt ⊢
    cases he : (removeLoop db head number batch 0).err with
    | some e =>
      simp [he]
    | none =>
      by_cases hd : (removeLoop db head number batch 0).numDeleted < number
      · simp [hd]
      · simp [he, hd] at hlt
  · intro hmax
    simp only [commitEvictAndWrite, if_pos hmax]
    rcases hmk : removeOldEntries db st.batch st.headHash (st.size - maxR) with ⟨h0, d0, b0, e0⟩
    cases e0 with
    | some e => exact ⟨rfl, fun _ => rfl⟩
    | none =>
      refine ⟨?_, ?_⟩
      · by_cases hd : st.size < d0
        · simp [hd, wrap]
        · simp [hd, finishCommit, wrap]
      · intro habs
        simp at habs

theorem removeOldEntries_shortfall_fails_witness :
    (removeOldEntries [] [] [3] 4).err.isSome = true ∧
    (commitEvictAndWrite [] 1 7
        { headHash := [3], tailHash := [], tailItem := zeroItem, size := 5,
          batch := [], txHashArray := [], events := [] }).2 =
      wrap (removeOldEntries [] [] [3] 4).err "removing old receipts" ∧
    (commitEvictAndWrite [] 1 7
        { headHash := [3], tailHash := [], tailItem := zeroItem, size := 5,
          batch := [], txHashArray := [], events := [] }).1.db = [] := by
  have h := removeOldEntries_shortfall_fails [] [] [3] 4 1 7
    { headHash := [3], tailHash := [], tailItem := zeroItem, size := 5,
      batch := [], txHashArray := [], events := [] }
  refine ⟨h.1 (by decide), (h.2 (by decide)).1, (h.2 (by decide)).2 (by decide)⟩
